import Mathlib

/-!  Verification development for the Art Blocks sales bot (src/index.js).

The JavaScript source is shallowly embedded: every network call is an input
of the embedded function (provider responses, RPC payloads, publish-call
outcomes arrive as explicit arguments), monetary amounts in wei are natural
numbers and prices in ETH are rationals (the thresholds and amounts the
claims mention are exactly representable as IEEE doubles, so the rational
arithmetic agrees with the JavaScript number arithmetic on them), and the
mutable fields of the service classes are records threaded through each
function.  -/

namespace SalesBot

/-- ASCII lowercasing of one character, the effect String.prototype.toLowerCase
has on the ASCII addresses and names this program handles. -/
def lowerChar (c : Char) : Char :=
  if 65 ≤ c.toNat ∧ c.toNat ≤ 90 then Char.ofNat (c.toNat + 32) else c

/-- Model of s.toLowerCase(). -/
def lowerStr (s : String) : String := String.mk (s.data.map lowerChar)

/-- Whitespace test covering the characters this program meets. -/
def isWs (c : Char) : Bool := c == ' ' || c == '\t' || c == '\n' || c == '\r'

/-- Model of String.prototype.trim. -/
def trimStr (s : String) : String :=
  String.mk (((s.data.dropWhile isWs).reverse.dropWhile isWs).reverse)

/-- Model of s.startsWith(p). -/
def strStartsWith (s p : String) : Bool := p.data.isPrefixOf s.data

/-- Indices at which pat occurs in l. -/
def occurrencesOf (pat l : List Char) : List Nat :=
  (List.range l.length).filter (fun i => pat.isPrefixOf (l.drop i))

/-- Model of s.indexOf(pat) for a nonempty pat: the first index, if any. -/
def indexOfSub (s pat : String) : Option Nat := (occurrencesOf pat.data s.data).head?

/-- Model of s.includes(pat) for a nonempty pat. -/
def containsSub (s pat : String) : Bool := (indexOfSub s pat).isSome

/-- Model of s.substring(a, b): the characters from index a up to b. -/
def substrRange (s : String) (a b : Nat) : String :=
  String.mk ((s.data.drop a).take (b - a))

/-- Model of s.slice(a): the characters from index a on. -/
def sliceFrom (s : String) (a : Nat) : String := String.mk (s.data.drop a)

def isDigitChar (c : Char) : Bool := 48 ≤ c.toNat && c.toNat ≤ 57

/-- Value of one hexadecimal digit. -/
def hexDigit? (c : Char) : Option Nat :=
  if 48 ≤ c.toNat ∧ c.toNat ≤ 57 then some (c.toNat - 48)
  else if 97 ≤ c.toNat ∧ c.toNat ≤ 102 then some (c.toNat - 87)
  else if 65 ≤ c.toNat ∧ c.toNat ≤ 70 then some (c.toNat - 55)
  else none

def hexToNat (l : List Char) : Nat :=
  l.foldl (fun a c => a * 16 + (hexDigit? c).getD 0) 0

/-- Model of BigInt(s) on the hex strings this program feeds it: BigInt of an
empty string is 0, a 0x-prefixed string must consist entirely of hex digits
(none models the TypeError a malformed string raises). -/
def parseBigIntHex (s : String) : Option Nat :=
  if s.data = [] then some 0
  else if strStartsWith s "0x" then
    let ds := s.data.drop 2
    if ds ≠ [] ∧ ds.all (fun c => (hexDigit? c).isSome) then some (hexToNat ds) else none
  else none

/-- Model of parseInt(s, 16): an optional 0x prefix, then the maximal leading
run of hex digits; none models NaN (no digit at all). -/
def parseIntHex (s : String) : Option Nat :=
  let ds := if strStartsWith s "0x" || strStartsWith s "0X" then s.data.drop 2 else s.data
  let run := ds.takeWhile (fun c => (hexDigit? c).isSome)
  if run = [] then none else some (hexToNat run)

def digitChar (n : Nat) : Char :=
  ['0', '1', '2', '3', '4', '5', '6', '7', '8', '9'].getD (n % 10) '0'

/-- Decimal digits of n, most significant first; fuel-driven so it reduces. -/
def natDigitsAux : Nat → Nat → List Char
  | 0, _ => []
  | fuel + 1, n =>
    if n < 10 then [digitChar n]
    else natDigitsAux fuel (n / 10) ++ [digitChar (n % 10)]

/-- Model of JavaScript number-to-string for the non-negative integers the
program interpolates into template strings. -/
def natToString (n : Nat) : String := String.mk (natDigitsAux (n + 1) n)

def firstSome {α β : Type} (f : α → Option β) : List α → Option β
  | [] => none
  | a :: rest => match f a with | some b => some b | none => firstSome f rest

-- =========================================================
-- CONFIGURATION (class Config, src/index.js lines 25-80)
-- =========================================================

structure Config where
  CONTRACT_ADDRESSES : List String
  MIN_PRICE_ETH : ℚ
  MAX_RETRIES : Nat
  RETRY_DELAY : Nat
  ETH_PRICE_CACHE_DURATION : Nat
  MIN_TIME_BETWEEN_TWEETS : Nat
  DISABLE_TWEETS : Bool
  INITIAL_STARTUP_DELAY : Nat
  NFT_METADATA_CACHE_DURATION : Nat
  CONTRACT_NAMES : List (String × String)

/-- The constructed Config instance, field for field. -/
def config : Config where
  CONTRACT_ADDRESSES :=
    [ "0x059EDD72Cd353dF5106D2B9cC5ab83a52287aC3a"
    , "0xa7d8d9ef8D8Ce8992Df33D8b8CF4Aebabd5bD270"
    , "0x99a9B7c1116f9ceEB1652de04d5969CcE509B069"
    , "0xAB0000000000aa06f89B268D604a9c1C41524Ac6"
    , "0x145789247973c5d612bf121e9e4eef84b63eb707"
    , "0x64780ce53f6e966e18a22af13a2f97369580ec11"
    , "0x942bc2d3e7a589fe5bd4a5c6ef9727dfd82f5c8a"
    , "0xea698596b6009a622c3ed00dd5a8b5d1cae4fc36" ]
  MIN_PRICE_ETH := 1 / 1000
  MAX_RETRIES := 3
  RETRY_DELAY := 60000
  ETH_PRICE_CACHE_DURATION := 900000
  MIN_TIME_BETWEEN_TWEETS := 15 * 60 * 1000
  DISABLE_TWEETS := false
  INITIAL_STARTUP_DELAY := 300000
  NFT_METADATA_CACHE_DURATION := 24 * 60 * 60 * 1000
  CONTRACT_NAMES :=
    [ ("0x059edd72cd353df5106d2b9cc5ab83a52287ac3a", "Art Blocks Flagship V0")
    , ("0xa7d8d9ef8d8ce8992df33d8b8cf4aebabd5bd270", "Art Blocks Flagship V1")
    , ("0x99a9b7c1116f9ceeb1652de04d5969cce509b069", "Art Blocks Flagship V3")
    , ("0xab0000000000aa06f89b268d604a9c1c41524ac6", "Art Blocks Curated V3.2")
    , ("0x145789247973c5d612bf121e9e4eef84b63eb707", "Art Blocks Collaborations")
    , ("0x64780ce53f6e966e18a22af13a2f97369580ec11", "Art Blocks Collaborations")
    , ("0x942bc2d3e7a589fe5bd4a5c6ef9727dfd82f5c8a", "Art Blocks Explorations")
    , ("0xea698596b6009a622c3ed00dd5a8b5d1cae4fc36", "Art Blocks Collaborations") ]

-- =========================================================
-- METADATA MANAGER (class MetadataManager, lines 662-847)
-- =========================================================

/-- Outcome of one metadata provider call (getOpenSeaAssetMetadata,
getArtBlocksTokenInfo, getAlchemyMetadata), at the boundary the resolver
consumes: success flag plus the three string fields it reads.  An empty
string stands for the missing/empty (falsy) field. -/
structure ProviderData where
  success : Bool
  projectName : String
  artistName : String
  description : String
deriving DecidableEq

/-- Provider response carrying no data at all (a failed call, success: false). -/
def noData : ProviderData := ⟨false, "", "", ""⟩

/-- Resolved metadata record getProjectDetails builds (lines 828-835). -/
structure ProjectDetails where
  projectId : Nat
  tokenNumber : Nat
  projectName : String
  artistName : String
  contractAddress : String
  artBlocksUrl : String
  aiContext : Option String
deriving DecidableEq

/-- Lookup of CONTRACT_NAMES with the 'Art Blocks' default (line 766). -/
def contractLabel (cfg : Config) (normalizedAddress : String) : String :=
  (cfg.CONTRACT_NAMES.lookup normalizedAddress).getD "Art Blocks"

def byMarker : List Char := [' ', 'b', 'y', ' ']

/-- Strip one trailing piece of the shape whitespace-then-hash-then-digits,
the optional third group of the artist regex, keeping the (nonempty) rest. -/
def stripTrailingEdition (l : List Char) : List Char :=
  let r := l.reverse
  let ds := r.takeWhile isDigitChar
  if ds ≠ [] then
    match r.drop ds.length with
    | '#' :: r2 =>
      let ws := r2.takeWhile isWs
      let r3 := r2.drop ws.length
      if ws ≠ [] ∧ r3 ≠ [] then r3.reverse else l
    | _ => l
  else l

def pickBySplit (orig : List Char) : List Nat → Option (List Char)
  | [] => none
  | i :: rest =>
    let tail := orig.drop (i + 4)
    if tail = [] then pickBySplit orig rest else some (stripTrailingEdition tail)

/-- Model of projectName.match against the case-insensitive pattern
dot-plus, literal ' by ', lazy dot-plus, optional whitespace-hash-digits
suffix, anchored at the end, returning the trimmed second capture group
(lines 780-784 and 810-812): the greedy first group makes the last usable
' by ' occurrence win, and a trailing edition marker is excluded. -/
def matchByArtist (s : String) : Option String :=
  let low := s.data.map lowerChar
  let cands := ((List.range low.length).filter fun i =>
      decide (0 < i) && byMarker.isPrefixOf (low.drop i)).reverse
  (pickBySplit s.data cands).map fun cap => trimStr (String.mk cap)

/-- Character class of the description artist regex: letters, digits and
whitespace, case-insensitively. -/
def isWordChar (c : Char) : Bool :=
  isWs c || isDigitChar c || (97 ≤ (lowerChar c).toNat && (lowerChar c).toNat ≤ 122)

/-- Capture of the description regex at a candidate 'by' position: at least
one whitespace character must follow the 'by', then the (greedy) run of
word characters is captured. -/
def byTextCapture (orig : List Char) (i : Nat) : Option (List Char) :=
  let t := (orig.drop (i + 2)).takeWhile isWordChar
  let w := t.takeWhile isWs
  if w = [] then none
  else if w.length < t.length then some (t.drop w.length)
  else if 2 ≤ w.length then some (t.drop (w.length - 1))
  else none

/-- Model of description.match against case-insensitive 'by', whitespace-plus,
then a captured run of letters, digits and whitespace (lines 788-793),
returning the trimmed first capture group of the first match. -/
def matchByInText (s : String) : Option String :=
  let low := s.data.map lowerChar
  let cands := (List.range low.length).filter fun i =>
      ['b', 'y'].isPrefixOf (low.drop i)
  (firstSome (byTextCapture s.data) cands).map fun cap => trimStr (String.mk cap)

/-- Model of MetadataManager.getProjectDetails (lines 668-846) on a cache
miss: the three provider responses arrive as arguments, and the resolution
logic is transcribed branch for branch (the 24h write-through cache sits in
ApiState and is not consulted here). -/
def getProjectDetails (cfg : Config) (tokenId : Nat) (contractAddress : String)
    (openSeaData artBlocksData alchemyData : ProviderData) : ProjectDetails :=
  let normalizedAddress := lowerStr contractAddress
  let projectId := tokenId / 1000000
  let tokenNumber := tokenId % 1000000
  -- OpenSea API first (lines 692-706)
  let pn0 := if openSeaData.success then openSeaData.projectName else ""
  let an0 := if openSeaData.success then openSeaData.artistName else ""
  let de0 := if openSeaData.success then openSeaData.description else ""
  -- Art Blocks API when project or artist is still missing (lines 709-731)
  let needAB := pn0 == "" || an0 == ""
  let pn1 := if needAB && artBlocksData.success && pn0 == "" && artBlocksData.projectName != ""
    then artBlocksData.projectName else pn0
  let an1 := if needAB && artBlocksData.success && an0 == "" && artBlocksData.artistName != ""
    then artBlocksData.artistName else an0
  let de1 := if needAB && artBlocksData.success && de0 == "" && artBlocksData.description != ""
    then artBlocksData.description else de0
  -- Alchemy as a final fallback (lines 734-757)
  let needAl := pn1 == "" || an1 == ""
  let pn2 := if needAl && alchemyData.success && pn1 == "" && alchemyData.projectName != ""
    then alchemyData.projectName else pn1
  let an2 := if needAl && alchemyData.success && an1 == "" && alchemyData.artistName != ""
    then alchemyData.artistName else an1
  let de2 := if needAl && alchemyData.success && de1 == "" && alchemyData.description != ""
    then alchemyData.description else de1
  -- Final project-name fallback, with the token 1506 special case (lines 760-770)
  let pn3 := if pn2 == "" then
      if tokenId = 1506 then "Chromie Squiggle"
      else contractLabel cfg normalizedAddress ++ " Project #" ++ natToString projectId
    else pn2
  -- Final artist fallback, with the token 1506 special case (lines 772-802)
  let an3 := if an2 == "" then
      if tokenId = 1506 then "Snowfro"
      else
        let a1 := match matchByArtist pn3 with | some a => a | none => ""
        let a2 := if a1 == "" && de2 != "" then
            match matchByInText de2 with | some a => a | none => ""
          else a1
        if a2 == "" then "Unknown Artist" else a2
    else an2
  -- Replace an artist that is syntactically an ETH address (lines 805-825)
  let an4 := if strStartsWith an3 "0x" && an3.data.length == 42 then
      let anA := match matchByArtist pn3 with
        | some ex => if ex.data.length > 0 && !(strStartsWith ex "0x") then ex else an3
        | none => an3
      if lowerStr anA == "0xf3860788d1597cecf938424baabe976fac87dc26" then "Snowfro" else anA
    else an3
  { projectId := projectId
    tokenNumber := tokenNumber
    projectName := trimStr pn3
    artistName := trimStr an4
    contractAddress := normalizedAddress
    artBlocksUrl := "https://www.artblocks.io/token/" ++ normalizedAddress ++ "/" ++ natToString tokenId
    aiContext := none }

-- =========================================================
-- API SERVICES (class ApiServices, lines 86-656)
-- =========================================================

/-- Cached metadata entry (lines 838-841). -/
structure MetaCacheEntry where
  data : ProjectDetails
  timestamp : Nat
deriving DecidableEq

/-- Mutable fields of ApiServices (constructor, lines 87-93): the ETH price
cache, the token metadata cache, and the dedup state of the OpenSea feed. -/
structure ApiState where
  ethPriceCachePrice : Option ℚ
  ethPriceCacheTimestamp : Nat
  tokenMetadataCache : List (String × MetaCacheEntry)
  processedEventIds : List String
  lastEventTimestamp : Nat
deriving DecidableEq

/-- Outcomes of the three price providers for one getEthPrice call: none is a
thrown/failed request or a missing field, some v a numeric response value. -/
structure PriceEnv where
  coinGecko : Option ℚ
  cryptoCompare : Option ℚ
  binance : Option ℚ

/-- Truthiness filter the provider branches apply: a response value is used
only when the checked field is truthy, i.e. present and nonzero. -/
def truthyNum : Option ℚ → Option ℚ
  | some v => if v ≠ 0 then some v else none
  | none => none

/-- Cache test of lines 127-131: cached price truthy and younger than the TTL. -/
def ethCacheFresh (cfg : Config) (st : ApiState) (now : Nat) : Bool :=
  match st.ethPriceCachePrice with
  | some p => p != 0 && decide (now - st.ethPriceCacheTimestamp < cfg.ETH_PRICE_CACHE_DURATION)
  | none => false

/-- Model of ApiServices.getEthPrice (lines 125-198): returns the price, the
state after the call, and how many providers were queried. -/
def getEthPrice (cfg : Config) (st : ApiState) (env : PriceEnv) (now : Nat) :
    ℚ × ApiState × Nat :=
  if ethCacheFresh cfg st now then (st.ethPriceCachePrice.getD 0, st, 0)
  else
    match truthyNum env.coinGecko with
    | some v => (v, { st with ethPriceCachePrice := some v, ethPriceCacheTimestamp := now }, 1)
    | none =>
      match truthyNum env.cryptoCompare with
      | some v => (v, { st with ethPriceCachePrice := some v, ethPriceCacheTimestamp := now }, 2)
      | none =>
        match truthyNum env.binance with
        | some v => (v, { st with ethPriceCachePrice := some v, ethPriceCacheTimestamp := now }, 3)
        | none =>
          -- line 192: return this.ethPriceCache.price || 2500
          (match st.ethPriceCachePrice with
           | some p => if p ≠ 0 then p else 2500
           | none => 2500, st, 3)

/-- One OpenSea sale event as the program reads it: the dedup id, the
created-date timestamp, and the payment / NFT / winner fields processSaleEvent
consumes. -/
structure Payment where
  quantity : Nat
deriving DecidableEq

structure NftRef where
  contract : String
  identifier : Nat
deriving DecidableEq

structure OSEvent where
  id : String
  timestamp : Nat
  payment : Option Payment
  nft : Option NftRef
  winner : Option String
deriving DecidableEq

/-- Per-event dedup filter of the OpenSea feed (lines 613-625): an id not in
the processed set is appended to the new events, recorded as processed, and
the watermark advances to its timestamp when newer. -/
def ingestEvent (acc : List String × Nat × List OSEvent) (e : OSEvent) :
    List String × Nat × List OSEvent :=
  let (ids, wm, out) := acc
  if ids.contains e.id then (ids, wm, out)
  else (e.id :: ids, if wm < e.timestamp then e.timestamp else wm, out ++ [e])

/-- One collection slug's response folded into the accumulator: a failed
request (none) is skipped by the per-collection catch, a page of events goes
through the dedup filter event by event. -/
def ingestResponse (acc : List String × Nat × List OSEvent) :
    Option (List OSEvent) → List String × Nat × List OSEvent
  | none => acc
  | some events => events.foldl ingestEvent acc

/-- Model of ApiServices.getOpenSeaSalesEvents (lines 587-649): one Option
response per collection slug, folded through the dedup filter. -/
def getOpenSeaSalesEvents (st : ApiState) (responses : List (Option (List OSEvent))) :
    ApiState × List OSEvent :=
  let r := responses.foldl ingestResponse (st.processedEventIds, st.lastEventTimestamp, [])
  ({ st with processedEventIds := r.1, lastEventTimestamp := r.2.1 }, r.2.2)

/-- Model of ApiServices.clearCaches (lines 651-655). -/
def clearCaches (st : ApiState) : ApiState × Bool :=
  ({ st with tokenMetadataCache := [],
             ethPriceCachePrice := none, ethPriceCacheTimestamp := 0 }, true)

-- =========================================================
-- SALE PRICE EXTRACTOR (TransactionProcessor.extractSalePrice, lines 1674-1735)
-- =========================================================

/-- Transaction detail as getTransaction returns it: toAddr models the
transaction's to field, value its native value in wei. -/
structure TxData where
  toAddr : Option String
  value : Nat
deriving DecidableEq

structure LogEntry where
  address : String
  topics : List String
  data : String
deriving DecidableEq

structure Receipt where
  logs : List LogEntry
deriving DecidableEq

def orderFulfilledTopic : String :=
  "0x9d9af8e38d66c62e2c12f0225249fd9d721c54b83f48d9352c97c6cacdcb6f31"

def transferTopic : String :=
  "0xddf252ad1be2c89b69c2b068fc378daa952ba7f163c4a11628f55a4df523b3ef"

def wethAddress : String := "0xc02aaa39b223fe8d0a0e5c4f27ead9083c756cc2"

def zeros40 : String := "0000000000000000000000000000000000000000"

/-- Model of TransactionProcessor.extractSalePrice (lines 1674-1735),
heuristic by heuristic.  In the WETH branch the source calls BigInt on the
log's data without a catch; a malformed data string is collapsed to amount 0
here, which rejects the sale downstream exactly as the thrown-and-caught
exception does. -/
def extractSalePrice (transaction : TxData) (receipt : Receipt) : ℚ :=
  -- Method 1: OrderFulfilled events (OpenSea Seaport)
  let orderFulfilledEvents := receipt.logs.filter fun log =>
    log.topics.head? == some orderFulfilledTopic
  let priceEth : ℚ :=
    match orderFulfilledEvents with
    | [] => 0
    | ev :: _ =>
      if transaction.value > 10 ^ 16 then (transaction.value : ℚ) / 10 ^ 18
      else
        match indexOfSub ev.data zeros40 with
        | some idx =>
          if 0 < idx then
            let potentialAmountHex := "0x" ++ substrRange ev.data (idx + 64) (idx + 64 + 64)
            match parseBigIntHex potentialAmountHex with
            | some amountWei => if 0 < amountWei then (amountWei : ℚ) / 10 ^ 18 else 0
            | none => 0
          else 0
        | none => 0
  -- Method 2: direct WETH transfers, else the material outer value
  if priceEth = 0 then
    let wethTransfers := receipt.logs.filter fun log =>
      lowerStr log.address == wethAddress && log.topics.head? == some transferTopic
    match wethTransfers with
    | w :: _ => (((parseBigIntHex w.data).getD 0 : ℚ)) / 10 ^ 18
    | [] => if transaction.value > 10 ^ 16 then (transaction.value : ℚ) / 10 ^ 18 else 0
  else priceEth

-- =========================================================
-- SALE PROCESSORS (OpenSeaEventProcessor lines 1272-1449,
-- TransactionProcessor lines 1455-1862)
-- =========================================================

/-- One entry of the recent-sales tracking list (lines 1398-1408). -/
structure SaleRecord where
  timestamp : Nat
  projectName : String
  artistName : String
  tokenNumber : Nat
  priceEth : ℚ
  usdPrice : Option ℚ
  buyer : String
  url : String
  source : Option String
  aiContext : Option String
deriving DecidableEq

/-- One queued publication task.  formatSaleTweet only renders these fields
into text, so the queue holds the structured content here. -/
structure TweetMsg where
  details : ProjectDetails
  priceEth : ℚ
  usdPrice : Option ℚ
  buyerDisplay : String
deriving DecidableEq

/-- External lookups one sale-processing call performs, as inputs: the three
metadata provider responses, the ETH/USD price getEthPrice resolves to, the
ENS and OpenSea name lookups for the buyer, the generated AI context (always
a string: every failure path of generateAIContext returns a fallback text),
and the clock value used for the tracking timestamp. -/
structure SaleEnv where
  openSea : ProviderData
  artBlocks : ProviderData
  alchemy : ProviderData
  ethPrice : ℚ
  ensName : Option String
  osUserName : Option String
  aiContext : String
  now : Nat

/-- Mutable state the two processors and the tweet queue share: the chain
monitor's dedup set, the recent-sales list, and the outbound tweet queue. -/
structure ProcState where
  processedTransactions : List String
  recentSales : List SaleRecord
  tweetQueue : List TweetMsg
deriving DecidableEq

/-- Result of one sale-processing call: the returned boolean, the state
afterwards, and whether metadata resolution was reached. -/
structure ProcResult where
  ret : Bool
  state : ProcState
  metadataQueried : Bool
deriving DecidableEq

/-- Model of TweetManager.formatAddress (lines 865-868). -/
def formatAddress : Option String → String
  | none => "Unknown"
  | some a =>
    if a = "" then "Unknown"
    else substrRange a 0 6 ++ "..." ++ sliceFrom a (a.data.length - 4)

/-- Buyer display resolution both processors perform (lines 1353-1365 and
1542-1554): formatted address, overridden by a truthy ENS name, else by a
truthy OpenSea username. -/
def resolveBuyerDisplay (env : SaleEnv) (addr : Option String) : String :=
  let byOS := match env.osUserName with
    | some u => if u != "" then u else formatAddress addr
    | none => formatAddress addr
  match env.ensName with
  | some n => if n != "" then n else byOS
  | none => byOS

/-- Model of OpenSeaEventProcessor.trackSaleEvent (lines 1396-1416). -/
def trackSaleEventOS (recent : List SaleRecord) (now : Nat) (details : ProjectDetails)
    (priceEth : ℚ) (buyer : String) (usdPrice : Option ℚ) (url : String) : List SaleRecord :=
  let l := { timestamp := now, projectName := details.projectName,
             artistName := details.artistName, tokenNumber := details.tokenNumber,
             priceEth := priceEth, usdPrice := usdPrice, buyer := buyer, url := url,
             source := none, aiContext := details.aiContext : SaleRecord } :: recent
  if l.length > 20 then l.dropLast else l

/-- Model of TransactionProcessor.trackSaleEvent (lines 1590-1611): same
update with the source field set to 'Blockchain'. -/
def trackSaleEventTx (recent : List SaleRecord) (now : Nat) (details : ProjectDetails)
    (priceEth : ℚ) (buyer : String) (usdPrice : Option ℚ) (url : String) : List SaleRecord :=
  let l := { timestamp := now, projectName := details.projectName,
             artistName := details.artistName, tokenNumber := details.tokenNumber,
             priceEth := priceEth, usdPrice := usdPrice, buyer := buyer, url := url,
             source := some "Blockchain", aiContext := details.aiContext : SaleRecord } :: recent
  if l.length > 20 then l.dropLast else l

/-- Model of OpenSeaEventProcessor.processSaleEvent (lines 1311-1393).  The
awaited lookups are supplied by env; queueTweet's push is the tweetQueue
append. -/
def processSaleEvent (cfg : Config) (env : SaleEnv) (ev : OSEvent) (st : ProcState) :
    ProcResult :=
  match ev.payment, ev.nft with
  | some payment, some nft =>
    let contractAddress := nft.contract
    if !(cfg.CONTRACT_ADDRESSES.any fun addr => lowerStr addr == lowerStr contractAddress) then
      ⟨false, st, false⟩
    else
      let priceEth : ℚ := (payment.quantity : ℚ) / 10 ^ 18
      if priceEth < cfg.MIN_PRICE_ETH then ⟨false, st, false⟩
      else
        let details0 := getProjectDetails cfg nft.identifier contractAddress
          env.openSea env.artBlocks env.alchemy
        let usdPrice := if env.ethPrice ≠ 0 then some (priceEth * env.ethPrice) else none
        let buyerDisplay := resolveBuyerDisplay env ev.winner
        let details := { details0 with aiContext := some env.aiContext }
        let tweet : TweetMsg := ⟨details, priceEth, usdPrice, buyerDisplay⟩
        let recent := trackSaleEventOS st.recentSales env.now details priceEth
          buyerDisplay usdPrice details.artBlocksUrl
        ⟨true, { st with recentSales := recent, tweetQueue := st.tweetQueue ++ [tweet] }, true⟩
  | _, _ => ⟨false, st, false⟩

/-- Input of one processTransaction call: the subscription's transaction hash
and contract, and what the two Alchemy fetches for that hash return. -/
structure TxInput where
  hash : String
  contractAddress : String
  transaction : Option TxData
  receipt : Option Receipt

/-- Model of TransactionProcessor.processTransaction (lines 1468-1587).  The
hash is recorded in the dedup set before any fetch; a missing transaction,
missing receipt, missing Transfer log or missing topic aborts with false (in
the source either an early return or a caught exception); the token id falls
back to 0 where parseInt yields NaN, which only changes the rendered name. -/
def processTransaction (cfg : Config) (env : SaleEnv) (tin : TxInput) (st : ProcState) :
    ProcResult :=
  if st.processedTransactions.contains tin.hash then ⟨false, st, false⟩
  else
    let st1 : ProcState :=
      { st with processedTransactions := tin.hash :: st.processedTransactions }
    match tin.transaction with
    | none => ⟨false, st1, false⟩
    | some transaction =>
      if transaction.toAddr.getD "" == "" then ⟨false, st1, false⟩
      else
        match tin.receipt with
        | none => ⟨false, st1, false⟩
        | some receipt =>
          let transferEvents := receipt.logs.filter fun log =>
            lowerStr log.address == lowerStr tin.contractAddress &&
            log.topics.head? == some transferTopic
          match transferEvents.getLast? with
          | none => ⟨false, st1, false⟩
          | some te =>
            match te.topics with
            | _t0 :: _t1 :: t2 :: rest =>
              let toAddress := "0x" ++ sliceFrom t2 26
              let tokenId := (match rest with
                | t3 :: _ => parseIntHex t3
                | [] => parseIntHex te.data).getD 0
              let priceEth := extractSalePrice transaction receipt
              if priceEth < cfg.MIN_PRICE_ETH ∨ priceEth = 0 then ⟨false, st1, false⟩
              else
                let details0 := getProjectDetails cfg tokenId tin.contractAddress
                  env.openSea env.artBlocks env.alchemy
                let usdPrice := if env.ethPrice ≠ 0 then some (priceEth * env.ethPrice) else none
                let buyerDisplay := resolveBuyerDisplay env (some toAddress)
                let details := { details0 with aiContext := some env.aiContext }
                let tweet : TweetMsg := ⟨details, priceEth, usdPrice, buyerDisplay⟩
                let recent := trackSaleEventTx st1.recentSales env.now details priceEth
                  buyerDisplay usdPrice details.artBlocksUrl
                ⟨true, { st1 with recentSales := recent,
                                  tweetQueue := st1.tweetQueue ++ [tweet] }, true⟩
            | _ => ⟨false, st1, false⟩

-- =========================================================
-- TWEET MANAGER (class TweetManager, lines 853-1045)
-- =========================================================

/-- Outcome of one raw publish attempt (the awaited twitter call). -/
inductive AttemptResult where
  | ok
  | err (code : Nat) (msg : String)
deriving DecidableEq

/-- Retry loop of async-retry as sendTweet configures it (lines 908-946):
bailing on error code 403 stops immediately; any other error is rethrown and
retried while retries remain.  Returns the number of publish attempts made
and the error (code, message) the promise rejects with, if any. -/
def runRetry (oracle : Nat → AttemptResult) : Nat → Nat → Nat × Option (Nat × String)
  | fuel, attempt =>
    match oracle attempt with
    | .ok => (attempt, none)
    | .err code msg =>
      if code = 403 then (attempt, some (code, msg))
      else
        match fuel with
        | 0 => (attempt, some (code, msg))
        | fuel' + 1 => runRetry oracle fuel' (attempt + 1)

/-- Model of TweetManager.sendTweet (lines 892-947) with the Twitter client
initialized: disabled tweets resolve as a preview with no publish attempt,
otherwise the retry wrapper drives the attempts. -/
def sendTweet (cfg : Config) (oracle : Nat → AttemptResult) : Nat × Option (Nat × String) :=
  if cfg.DISABLE_TWEETS then (0, none)
  else runRetry oracle cfg.MAX_RETRIES 1

/-- Result of the awaited sendTweet call as processTweetQueue observes it. -/
inductive SendOutcome where
  | success
  | failure (code : Nat) (msg : String)
deriving DecidableEq

/-- Mutable fields of TweetManager (constructor, lines 853-863). -/
structure QState where
  tweetQueue : List TweetMsg
  isTweetProcessing : Bool
  lastTweetTime : Nat
  tweetFailures : Nat
  lastRateLimitTime : Nat
  appStartTime : Nat
deriving DecidableEq

/-- Timing of one processTweetQueue invocation: now is Date.now() at entry
(line 967, also standing for the clock checkTwitterStatus reads a moment
later), done is Date.now() when line 1026 stamps lastTweetTime after the
awaited send, outcome is how the awaited sendTweet resolved. -/
structure QueueEvent where
  now : Nat
  done : Nat
  outcome : SendOutcome
deriving DecidableEq

/-- Model of TweetManager.queueTweet's push (lines 949-958). -/
def queueTweet (st : QState) (m : TweetMsg) : QState × Bool :=
  ({ st with tweetQueue := st.tweetQueue ++ [m] }, true)

/-- Model of one complete invocation of TweetManager.processTweetQueue
(lines 961-1041): the re-entrancy and empty checks, the startup quiet
period, the rate-limit cooldown, and the minimum-spacing gate all defer and
leave the state unchanged (each re-arms a timer and releases the lock);
otherwise the head task is taken, the send awaited, lastTweetTime stamped,
and on failure the task is put back at the front unless the error message
contains the substring of the permanent code.  Returns the state and whether
a send attempt was performed. -/
def processTweetQueueStep (cfg : Config) (st : QState) (ev : QueueEvent) : QState × Bool :=
  if st.isTweetProcessing || st.tweetQueue.isEmpty then (st, false)
  else if ev.now - st.appStartTime < cfg.INITIAL_STARTUP_DELAY then (st, false)
  else if 0 < st.lastRateLimitTime ∧ ev.now - st.lastRateLimitTime < 30 * 60 * 1000 then
    (st, false)
  else if ev.now - st.lastTweetTime < cfg.MIN_TIME_BETWEEN_TWEETS ∧ 0 < st.lastTweetTime then
    (st, false)
  else
    match st.tweetQueue with
    | [] => (st, false)
    | m :: rest =>
      match ev.outcome with
      | .success =>
        ({ st with tweetQueue := rest, tweetFailures := 0, lastTweetTime := ev.done }, true)
      | .failure _code msg =>
        ({ st with tweetQueue := if containsSub msg "403" then rest else m :: rest,
                   tweetFailures := st.tweetFailures + 1,
                   lastTweetTime := ev.done }, true)

/-- A sequence of processTweetQueue invocations. -/
def runQueue (cfg : Config) : QState → List QueueEvent → QState
  | st, [] => st
  | st, ev :: rest => runQueue cfg (processTweetQueueStep cfg st ev).1 rest

/-- Completion times of the successful send attempts along a trace. -/
def successTimes (cfg : Config) : QState → List QueueEvent → List Nat
  | _, [] => []
  | st, ev :: rest =>
    let r := processTweetQueueStep cfg st ev
    if r.2 && ev.outcome == SendOutcome.success then ev.done :: successTimes cfg r.1 rest
    else successTimes cfg r.1 rest

/-- Chronology of a trace from a base time: each invocation enters no earlier
than that time, its attempt completes no earlier than its entry, and the next
invocation enters no earlier than that completion. -/
def chronFrom : Nat → List QueueEvent → Bool
  | _, [] => true
  | t, ev :: rest =>
    decide (t ≤ ev.now) && decide (ev.now ≤ ev.done) && chronFrom ev.done rest

-- =========================================================
-- CONCRETE SCENARIO DATA
-- =========================================================

/-- First tracked contract, Art Blocks Flagship V0. -/
def cA : String := "0x059EDD72Cd353dF5106D2B9cC5ab83a52287aC3a"

/-- Environment for the scenario runs: every metadata provider fails, the
ETH price resolves to 2000, no ENS or OpenSea name, a fixed AI context. -/
def env0 : SaleEnv := ⟨noData, noData, noData, 2000, none, none, "A vivid piece.", 1234⟩

/-- Marketplace-feed observation of the scenario sale: 2.5 ETH for token
2000000 of the tracked contract. -/
def exEvent : OSEvent :=
  ⟨"os-evt-1", 1000, some ⟨2500000000000000000⟩, some ⟨cA, 2000000⟩,
   some "0x1111111111111111111111111111111111111111"⟩

/-- ERC-721 Transfer log of the scenario transaction, from the tracked
contract, carrying token id 2000000 (hex 1e8480) in its fourth topic. -/
def transferLog : LogEntry :=
  ⟨cA,
   [transferTopic,
    "0x0000000000000000000000002222222222222222222222222222222222222222",
    "0x0000000000000000000000001111111111111111111111111111111111111111",
    "0x00000000000000000000000000000000000000000000000000000000001e8480"],
   "0x"⟩

/-- WETH Transfer log of the scenario transaction: 2500000000000000000 wei
(hex 22b1c8c1227a0000), i.e. 2.5 ETH. -/
def wethLog : LogEntry :=
  ⟨"0xC02aaa39b223FE8D0A0e5C4F27eAD9083C756Cc2",
   [transferTopic,
    "0x0000000000000000000000002222222222222222222222222222222222222222",
    "0x0000000000000000000000001111111111111111111111111111111111111111"],
   "0x22b1c8c1227a0000"⟩

/-- Scenario transaction: outer native value 0, settled through WETH. -/
def exTx : TxData := ⟨some "0x7f268357a8c2552623316e2562d90e642bb538e5", 0⟩

def exReceipt : Receipt := ⟨[transferLog, wethLog]⟩

/-- Chain-monitor observation of the same underlying sale, hash 0xabc. -/
def exTxInput : TxInput := ⟨"0xabc", cA, some exTx, some exReceipt⟩

/-- Fresh processor state: nothing processed, nothing queued. -/
def st0 : ProcState := ⟨[], [], []⟩

/-- Fresh ApiServices state with an empty price cache. -/
def apiSt0 : ApiState := ⟨none, 0, [], [], 0⟩

/-- A queued publication task used by the queue traces. -/
def msgW : TweetMsg :=
  ⟨⟨2, 5, "Project", "Artist", "0xc", "https://example", none⟩, 1, none, "buyer"⟩

/-- Queue state for the rate-limit trace: two tasks waiting, app started at
time 1, nothing sent yet. -/
def qStW : QState := ⟨[msgW, msgW], false, 0, 0, 0, 1⟩

/-- Two consumer invocations: the first sends at 300002, the second becomes
ready and sends at 1300001, more than the minimum interval later. -/
def evsW : List QueueEvent :=
  [⟨300001, 300002, SendOutcome.success⟩, ⟨1300000, 1300001, SendOutcome.success⟩]

/-- Queue state whose last send was at 300002, with a task waiting. -/
def qStDeferW : QState := ⟨[msgW], false, 300002, 0, 0, 1⟩

/-- An invocation arriving one minute after the last send, before the
minimum interval has elapsed. -/
def evDeferW : QueueEvent := ⟨360002, 360003, SendOutcome.success⟩

/-- Invariant of the OpenSea ingest fold, relative to the id set the fold
started from: the collected events have pairwise distinct ids, none of them
was already processed, the starting ids are retained, and every collected
event's id is recorded. -/
def IngestInv (ids0 : List String) (acc : List String × Nat × List OSEvent) : Prop :=
  (acc.2.2.map OSEvent.id).Nodup
  ∧ (∀ e ∈ acc.2.2, e.id ∉ ids0)
  ∧ (∀ x ∈ ids0, x ∈ acc.1)
  ∧ (∀ e ∈ acc.2.2, e.id ∈ acc.1)

-- =========================================================
-- HELPER LEMMAS
-- =========================================================

attribute [local semireducible] Rat.mul Rat.inv Rat.add Rat.sub

theorem lookup_getD_mem {α β : Type} [BEq α] (l : List (α × β)) (k : α) (d : β) :
    (l.lookup k).getD d = d ∨ (l.lookup k).getD d ∈ l.map Prod.snd := by
  induction l with
  | nil => left; rfl
  | cons p rest ih =>
    rcases p with ⟨a, b⟩
    by_cases h : (k == a) = true
    · right
      simp [List.lookup, h]
    · rcases ih with h' | h'
      · left; simpa [List.lookup, h] using h'
      · right
        simp only [List.lookup, h, List.map_cons, List.mem_cons]
        right
        simpa using h'

theorem ingestEvent_inv (ids0 : List String) (acc : List String × Nat × List OSEvent)
    (e : OSEvent) (h : IngestInv ids0 acc) : IngestInv ids0 (ingestEvent acc e) := by
  obtain ⟨hnd, hnot, hsub, hmem⟩ := h
  rcases acc with ⟨ids, wm, out⟩
  unfold ingestEvent
  dsimp only at *
  by_cases hc : ids.contains e.id
  · rw [if_pos hc]
    exact ⟨hnd, hnot, hsub, hmem⟩
  · rw [if_neg hc]
    have hnotin : e.id ∉ ids := fun hmem' => hc (List.elem_eq_true_of_mem hmem')
    refine ⟨?_, ?_, ?_, ?_⟩
    · rw [List.map_append]
      simp only [List.map_cons, List.map_nil]
      rw [List.nodup_append]
      refine ⟨hnd, List.nodup_singleton _, ?_⟩
      intro x hx
      simp only [List.mem_singleton]
      intro hxe
      subst hxe
      rcases List.mem_map.mp hx with ⟨e', he', hid⟩
      exact hnotin (hid ▸ hmem e' he')
    · intro e' he'
      rcases List.mem_append.mp he' with h' | h'
      · exact hnot e' h'
      · simp only [List.mem_singleton] at h'
        subst h'
        exact fun h0 => hnotin (hsub _ h0)
    · intro x hx
      exact List.mem_cons_of_mem _ (hsub x hx)
    · intro e' he'
      rcases List.mem_append.mp he' with h' | h'
      · exact List.mem_cons_of_mem _ (hmem e' h')
      · simp only [List.mem_singleton] at h'
        subst h'
        exact List.mem_cons_self _ _

theorem ingestList_inv (ids0 : List String) :
    ∀ (evs : List OSEvent) (acc : List String × Nat × List OSEvent),
      IngestInv ids0 acc → IngestInv ids0 (evs.foldl ingestEvent acc) := by
  intro evs
  induction evs with
  | nil => intro acc h; exact h
  | cons e rest ih =>
    intro acc h
    exact ih _ (ingestEvent_inv ids0 acc e h)

theorem ingestResponses_inv (ids0 : List String) :
    ∀ (rs : List (Option (List OSEvent))) (acc : List String × Nat × List OSEvent),
      IngestInv ids0 acc → IngestInv ids0 (rs.foldl ingestResponse acc) := by
  intro rs
  induction rs with
  | nil => intro acc h; exact h
  | cons r rest ih =>
    intro acc h
    rcases r with _ | evs
    · exact ih _ h
    · exact ih _ (ingestList_inv ids0 evs acc h)

theorem getOpenSeaSalesEvents_inv (st : ApiState) (rs : List (Option (List OSEvent))) :
    ((getOpenSeaSalesEvents st rs).2.map OSEvent.id).Nodup
    ∧ ∀ e ∈ (getOpenSeaSalesEvents st rs).2, e.id ∉ st.processedEventIds := by
  have h := ingestResponses_inv st.processedEventIds rs
    (st.processedEventIds, st.lastEventTimestamp, [])
    ⟨by simp, by simp, fun x hx => hx, by simp⟩
  exact ⟨h.1, h.2.1⟩

theorem processTransaction_records_hash (env : SaleEnv) (tin : TxInput) (st : ProcState) :
    tin.hash ∈ (processTransaction config env tin st).state.processedTransactions := by
  unfold processTransaction
  by_cases hc : st.processedTransactions.contains tin.hash
  · rw [if_pos hc]
    exact List.mem_of_elem_eq_true hc
  · rw [if_neg hc]
    dsimp only
    repeat' split
    all_goals simp

theorem processTransaction_shortcircuit (env : SaleEnv) (tin : TxInput) (st : ProcState)
    (h : tin.hash ∈ st.processedTransactions) :
    processTransaction config env tin st = ⟨false, st, false⟩ := by
  unfold processTransaction
  rw [if_pos (List.elem_eq_true_of_mem h)]

/-- Full case analysis of one processTweetQueue invocation: either it defers
(or skips) leaving the state unchanged with no attempt, or it performs a send
attempt, in which case the queue was nonempty, the minimum-spacing and
startup gates had passed, lastTweetTime is stamped with the completion time,
and the queue shrinks by the head task unless a failure without the
permanent marker in its message puts it back. -/
theorem step_cases (st : QState) (ev : QueueEvent) :
    processTweetQueueStep config st ev = (st, false)
    ∨ ((processTweetQueueStep config st ev).2 = true
       ∧ st.tweetQueue ≠ []
       ∧ (st.lastTweetTime = 0 ∨ st.lastTweetTime + config.MIN_TIME_BETWEEN_TWEETS ≤ ev.now)
       ∧ config.INITIAL_STARTUP_DELAY ≤ ev.now
       ∧ (processTweetQueueStep config st ev).1.lastTweetTime = ev.done
       ∧ (processTweetQueueStep config st ev).1.tweetQueue =
           (match ev.outcome with
            | .success => st.tweetQueue.tail
            | .failure _ msg =>
              if containsSub msg "403" then st.tweetQueue.tail else st.tweetQueue)) := by
  unfold processTweetQueueStep
  split
  · left; rfl
  · split
    · left; rfl
    · split
      · left; rfl
      · split
        · left; rfl
        · rename_i hflag hstart hrl hmin
          right
          rcases hq : st.tweetQueue with _ | ⟨m, rest⟩
          · exfalso
            apply hflag
            simp [hq]
          · have hstart' : config.INITIAL_STARTUP_DELAY ≤ ev.now := by omega

            have hmin' : st.lastTweetTime = 0
                ∨ st.lastTweetTime + config.MIN_TIME_BETWEEN_TWEETS ≤ ev.now := by
              have hMIN : config.MIN_TIME_BETWEEN_TWEETS = 900000 := rfl
              rcases Nat.eq_zero_or_pos st.lastTweetTime with h0 | h0
              · exact Or.inl h0
              · right
                have : ¬ (ev.now - st.lastTweetTime < config.MIN_TIME_BETWEEN_TWEETS) :=
                  fun hlt => hmin ⟨hlt, h0⟩
                omega
            rcases ev with ⟨now, done, outcome⟩
            rcases outcome with _ | ⟨code, msg⟩
            · exact ⟨rfl, by simp [hq], hmin', hstart', rfl, rfl⟩
            · exact ⟨rfl, by simp [hq], hmin', hstart', rfl, rfl⟩

theorem getD_digits_mem (i : Nat) :
    (['0', '1', '2', '3', '4', '5', '6', '7', '8', '9'].getD i '0')
      ∈ ['0', '1', '2', '3', '4', '5', '6', '7', '8', '9'] := by
  rcases i with _|_|_|_|_|_|_|_|_|_|i <;> simp [List.getD]

theorem digitChar_isDigit (n : Nat) : isDigitChar (digitChar n) = true := by
  have h := getD_digits_mem (n % 10)
  have hall : ∀ c ∈ ['0', '1', '2', '3', '4', '5', '6', '7', '8', '9'],
      isDigitChar c = true := by decide
  exact hall _ h

theorem natDigitsAux_digits : ∀ (fuel n : Nat), ∀ c ∈ natDigitsAux fuel n,
    isDigitChar c = true := by
  intro fuel
  induction fuel with
  | zero => intro n c hc; simp [natDigitsAux] at hc
  | succ f ih =>
    intro n c hc
    unfold natDigitsAux at hc
    split at hc
    · simp at hc
      subst hc
      exact digitChar_isDigit n
    · rcases List.mem_append.mp hc with h' | h'
      · exact ih _ _ h'
      · simp at h'
        subst h'
        exact digitChar_isDigit _

theorem natDigitsAux_ne_nil (fuel n : Nat) : natDigitsAux (fuel + 1) n ≠ [] := by
  unfold natDigitsAux
  split <;> simp

theorem ws_not_digit (c : Char) (h : isWs c = true) : isDigitChar c = false := by
  unfold isWs at h
  simp only [Bool.or_eq_true, beq_iff_eq] at h
  rcases h with ((rfl | rfl) | rfl) | rfl <;> decide

theorem isDigit_not_ws (c : Char) (h : isDigitChar c = true) : isWs c = false := by
  rcases hw : isWs c with _ | _
  · rfl
  · rw [ws_not_digit c hw] at h
    cases h

theorem digit_lowerChar_self (c : Char) (h : isDigitChar c = true) : lowerChar c = c := by
  unfold isDigitChar at h
  simp only [Bool.and_eq_true, decide_eq_true_eq] at h
  unfold lowerChar
  rw [if_neg]
  omega

theorem digit_ne_y (c : Char) (h : isDigitChar c = true) : c ≠ 'y' := by
  rintro rfl
  revert h
  decide

theorem dropWhile_eq_self_of_head (p : Char → Bool) (l : List Char)
    (h : ∀ c, l.head? = some c → p c = false) : l.dropWhile p = l := by
  rcases l with _ | ⟨a, t⟩
  · rfl
  · rw [List.dropWhile_cons, h a rfl]
    simp

theorem trimStr_eq_self (s : String)
    (h1 : ∀ c, s.data.head? = some c → isWs c = false)
    (h2 : ∀ c, s.data.getLast? = some c → isWs c = false) : trimStr s = s := by
  unfold trimStr
  rw [dropWhile_eq_self_of_head _ _ h1,
    dropWhile_eq_self_of_head _ _ (fun c hc => h2 c (by rwa [List.head?_reverse] at hc)),
    List.reverse_reverse]

theorem matchByArtist_eq_none (s : String)
    (hy : ∀ c ∈ s.data.map lowerChar, c ≠ 'y') : matchByArtist s = none := by
  unfold matchByArtist
  have hocc : ((List.range (s.data.map lowerChar).length).filter fun i =>
      decide (0 < i) && byMarker.isPrefixOf ((s.data.map lowerChar).drop i)) = [] := by
    rw [List.filter_eq_nil_iff]
    intro i _
    simp only [Bool.and_eq_true, decide_eq_true_eq, not_and]
    intro _ hpre
    have hpre' : byMarker <+: (s.data.map lowerChar).drop i :=
      List.isPrefixOf_iff_prefix.mp hpre
    have hmem : 'y' ∈ (s.data.map lowerChar).drop i := hpre'.subset (by decide)
    exact hy _ (List.mem_of_mem_drop hmem) rfl
  dsimp only
  rw [hocc]
  rfl

theorem contractLabel_mem (addr : String) :
    contractLabel config addr ∈
      ["Art Blocks", "Art Blocks Flagship V0", "Art Blocks Flagship V1",
       "Art Blocks Flagship V3", "Art Blocks Curated V3.2",
       "Art Blocks Collaborations", "Art Blocks Explorations"] := by
  unfold contractLabel
  rcases lookup_getD_mem config.CONTRACT_NAMES addr "Art Blocks" with h | h
  · rw [h]; decide
  · have hsub : ∀ x ∈ config.CONTRACT_NAMES.map Prod.snd, x ∈
        ["Art Blocks", "Art Blocks Flagship V0", "Art Blocks Flagship V1",
         "Art Blocks Flagship V3", "Art Blocks Curated V3.2",
         "Art Blocks Collaborations", "Art Blocks Explorations"] := by decide
    exact hsub _ h

theorem label_props : ∀ s ∈
    ["Art Blocks", "Art Blocks Flagship V0", "Art Blocks Flagship V1",
     "Art Blocks Flagship V3", "Art Blocks Curated V3.2",
     "Art Blocks Collaborations", "Art Blocks Explorations"],
    s.data ≠ [] ∧ isWs (s.data.headD 'x') = false ∧ 'y' ∉ s.data.map lowerChar := by
  decide

theorem chronFrom_mono : ∀ (evs : List QueueEvent) (t t' : Nat), t' ≤ t →
    chronFrom t evs = true → chronFrom t' evs = true := by
  intro evs
  induction evs with
  | nil => intro t t' _ _; rfl
  | cons ev rest _ =>
    intro t t' hle hc
    unfold chronFrom at hc ⊢
    simp only [Bool.and_eq_true, decide_eq_true_eq] at hc ⊢
    exact ⟨⟨le_trans hle hc.1.1, hc.1.2⟩, hc.2⟩

theorem successTimes_chain :
    ∀ (evs : List QueueEvent) (st : QState),
      chronFrom st.lastTweetTime evs = true →
      List.Chain' (fun a b => a + config.MIN_TIME_BETWEEN_TWEETS ≤ b)
        (successTimes config st evs)
      ∧ (∀ t ∈ successTimes config st evs,
          st.lastTweetTime = 0 ∨ st.lastTweetTime + config.MIN_TIME_BETWEEN_TWEETS ≤ t) := by
  intro evs
  induction evs with
  | nil =>
    intro st _
    exact ⟨List.chain'_nil, by intro t ht; simp [successTimes] at ht⟩
  | cons ev rest ih =>
    intro st h
    have hc : st.lastTweetTime ≤ ev.now ∧ ev.now ≤ ev.done ∧ chronFrom ev.done rest = true := by
      unfold chronFrom at h
      simp only [Bool.and_eq_true, decide_eq_true_eq] at h
      exact ⟨h.1.1, h.1.2, h.2⟩
    obtain ⟨hle1, hle2, hrest⟩ := hc
    rcases step_cases st ev with hidle | ⟨hperf, _, hgate, hstart, hltt, _⟩
    · have hrw : successTimes config st (ev :: rest) = successTimes config st rest := by
        conv_lhs => unfold successTimes
        rw [hidle]
        simp
      rw [hrw]
      exact ih st (chronFrom_mono rest _ _ (le_trans hle1 hle2) hrest)
    · have hihpre : chronFrom (processTweetQueueStep config st ev).1.lastTweetTime rest = true := by
        rw [hltt]; exact hrest
      have hih := ih (processTweetQueueStep config st ev).1 hihpre
      have hdonepos : 0 < ev.done := by
        have h300 : config.INITIAL_STARTUP_DELAY = 300000 := rfl
        omega
      have hboundS : ∀ t ∈ successTimes config (processTweetQueueStep config st ev).1 rest,
          ev.done + config.MIN_TIME_BETWEEN_TWEETS ≤ t := by
        intro t ht
        rcases hih.2 t ht with h0 | hb
        · rw [hltt] at h0; omega
        · rw [hltt] at hb; exact hb
      rcases ho : ev.outcome with _ | ⟨code, msg⟩
      · have hrw : successTimes config st (ev :: rest)
            = ev.done :: successTimes config (processTweetQueueStep config st ev).1 rest := by
          conv_lhs => unfold successTimes
          dsimp only
          rw [hperf, ho]
          simp
        rw [hrw]
        constructor
        · rw [List.chain'_cons']
          refine ⟨fun y hy => hboundS y (List.mem_of_mem_head? hy), hih.1⟩
        · intro t ht
          rcases List.mem_cons.mp ht with rfl | ht'
          · rcases hgate with h0 | hb
            · exact Or.inl h0
            · exact Or.inr (by omega)
          · have := hboundS t ht'
            rcases hgate with h0 | hb
            · exact Or.inl h0
            · exact Or.inr (by omega)
      · have hrw : successTimes config st (ev :: rest)
            = successTimes config (processTweetQueueStep config st ev).1 rest := by
          conv_lhs => unfold successTimes
          dsimp only
          rw [hperf, ho]
          simp
        rw [hrw]
        constructor
        · exact hih.1
        · intro t ht
          have := hboundS t ht
          rcases hgate with h0 | hb
          · exact Or.inl h0
          · exact Or.inr (by omega)

theorem push_bound (r : SaleRecord) (l : List SaleRecord) (h : l.length ≤ 20) :
    (if (r :: l).length > 20 then (r :: l).dropLast else r :: l).head? = some r
    ∧ (if (r :: l).length > 20 then (r :: l).dropLast else r :: l).length ≤ 20 := by
  rcases l with _ | ⟨b, t⟩
  · simp
  · by_cases hc : (r :: b :: t).length > 20
    · rw [if_pos hc, List.dropLast_cons₂]
      refine ⟨rfl, ?_⟩
      simp at h hc ⊢
      omega
    · rw [if_neg hc]
      refine ⟨rfl, ?_⟩
      simp at hc ⊢
      omega

-- =========================================================
-- CLAIM THEOREMS
-- =========================================================

/-- Claim C6: price extraction on a transaction with native value 0 and a
WETH transfer of 2500000000000000000 wei in the log (and no marketplace
settlement event) returns exactly 2.5; when no heuristic yields a positive
amount the result is 0; and the result is never negative. -/
theorem extractSalePrice_spec :
    extractSalePrice exTx exReceipt = 5 / 2
    ∧ (∀ (t : TxData) (r : Receipt),
        r.logs.filter (fun log => log.topics.head? == some orderFulfilledTopic) = [] →
        r.logs.filter (fun log =>
          lowerStr log.address == wethAddress && log.topics.head? == some transferTopic) = [] →
        t.value ≤ 10 ^ 16 →
        extractSalePrice t r = 0)
    ∧ (∀ (t : TxData) (r : Receipt), 0 ≤ extractSalePrice t r) := by
  refine ⟨by decide, ?_, ?_⟩
  · intro t r h1 h2 h3
    unfold extractSalePrice
    rw [h1, h2]
    have hv : ¬ (t.value > 10 ^ 16) := by omega
    simp [hv]
    omega
  · intro t r
    unfold extractSalePrice
    dsimp only
    repeat' split
    all_goals positivity

/-- Witness for the universally quantified parts of the price-extraction
theorem at a concrete transaction with no price signal at all. -/
theorem extractSalePrice_spec_witness :
    extractSalePrice ⟨some "0xdest", 0⟩ ⟨[]⟩ = 0 ∧ (0 : ℚ) ≤ extractSalePrice exTx exReceipt :=
  ⟨extractSalePrice_spec.2.1 ⟨some "0xdest", 0⟩ ⟨[]⟩ (by decide) (by decide) (by decide),
   extractSalePrice_spec.2.2 exTx exReceipt⟩

/-- Claim C8 counterexample: with the CoinGecko field holding the truthy but
negative value -1 and CryptoCompare offering 3000, getEthPrice returns -1,
not the first well-formed positive result. -/
theorem getEthPrice_negative_accepted :
    (getEthPrice config apiSt0 ⟨some (-1), some 3000, none⟩ 100).1 = -1
    ∧ ¬(0 < (getEthPrice config apiSt0 ⟨some (-1), some 3000, none⟩ 100).1) := by
  decide

/-- Claim C8 as amended: getEthPrice is a total function (it never raises);
a fresh cache (truthy price younger than the TTL) is returned with no
provider queried; otherwise the providers are tried in the fixed order
CoinGecko, CryptoCompare, Binance and the first truthy (nonzero, not
necessarily positive) value is cached and returned; and when every provider
fails or yields zero the cached value is returned, or 2500 with an empty
cache, with the cache left unchanged. -/
theorem getEthPrice_amended :
    (∀ (st : ApiState) (env : PriceEnv) (now : Nat), ethCacheFresh config st now = true →
      getEthPrice config st env now = (st.ethPriceCachePrice.getD 0, st, 0))
    ∧ (∀ (st : ApiState) (env : PriceEnv) (now : Nat) (v : ℚ),
        ethCacheFresh config st now = false → env.coinGecko = some v → v ≠ 0 →
        getEthPrice config st env now =
          (v, { st with ethPriceCachePrice := some v, ethPriceCacheTimestamp := now }, 1))
    ∧ (∀ (st : ApiState) (env : PriceEnv) (now : Nat) (v : ℚ),
        ethCacheFresh config st now = false → truthyNum env.coinGecko = none →
        env.cryptoCompare = some v → v ≠ 0 →
        getEthPrice config st env now =
          (v, { st with ethPriceCachePrice := some v, ethPriceCacheTimestamp := now }, 2))
    ∧ (∀ (st : ApiState) (env : PriceEnv) (now : Nat) (v : ℚ),
        ethCacheFresh config st now = false → truthyNum env.coinGecko = none →
        truthyNum env.cryptoCompare = none → env.binance = some v → v ≠ 0 →
        getEthPrice config st env now =
          (v, { st with ethPriceCachePrice := some v, ethPriceCacheTimestamp := now }, 3))
    ∧ (∀ (st : ApiState) (env : PriceEnv) (now : Nat),
        ethCacheFresh config st now = false → truthyNum env.coinGecko = none →
        truthyNum env.cryptoCompare = none → truthyNum env.binance = none →
        getEthPrice config st env now =
          (match st.ethPriceCachePrice with
           | some p => if p ≠ 0 then p else 2500
           | none => 2500, st, 3)) := by
  refine ⟨?_, ?_, ?_, ?_, ?_⟩
  · intro st env now h
    unfold getEthPrice
    rw [h]
    simp
  · intro st env now v h hc hv
    unfold getEthPrice
    rw [h, hc]
    simp [truthyNum, hv]
  · intro st env now v h hc hcc hv
    unfold getEthPrice
    rw [h, hc, hcc]
    simp [truthyNum, hv]
  · intro st env now v h hc hcc hb hv
    unfold getEthPrice
    rw [h, hc, hcc, hb]
    simp [truthyNum, hv]
  · intro st env now h hc hcc hb
    unfold getEthPrice
    rw [h, hc, hcc, hb]
    rfl

/-- Witness for the amended getEthPrice theorem: a fresh cache is returned
untouched, and total provider failure over an empty cache yields the 2500
fallback. -/
theorem getEthPrice_amended_witness :
    getEthPrice config ⟨some 1800, 50, [], [], 0⟩ ⟨some 9, some 9, some 9⟩ 100
      = (1800, ⟨some 1800, 50, [], [], 0⟩, 0)
    ∧ getEthPrice config apiSt0 ⟨none, none, none⟩ 100 = (2500, apiSt0, 3) :=
  ⟨getEthPrice_amended.1 ⟨some 1800, 50, [], [], 0⟩ ⟨some 9, some 9, some 9⟩ 100 (by decide),
   getEthPrice_amended.2.2.2.2 apiSt0 ⟨none, none, none⟩ 100
     (by decide) (by decide) (by decide) (by decide)⟩

/-- Claim C9: clearCaches empties the token-metadata cache, resets the ETH
price cache and returns true, while the processed-event-id set and the
last-seen-event-timestamp watermark are unchanged; consequently the OpenSea
feed's dedup behaviour (the new events returned, the resulting id set and
watermark) is identical after a cache clear, so a cleared cache can never
make an already-processed event re-surface. -/
theorem clearCaches_frame :
    (∀ (st : ApiState),
      clearCaches st = ({ st with tokenMetadataCache := [],
                                  ethPriceCachePrice := none,
                                  ethPriceCacheTimestamp := 0 }, true))
    ∧ (∀ (st : ApiState),
        (clearCaches st).1.processedEventIds = st.processedEventIds
        ∧ (clearCaches st).1.lastEventTimestamp = st.lastEventTimestamp
        ∧ (clearCaches st).2 = true)
    ∧ (∀ (st : ApiState) (rs : List (Option (List OSEvent))),
        (getOpenSeaSalesEvents (clearCaches st).1 rs).2 = (getOpenSeaSalesEvents st rs).2
        ∧ (getOpenSeaSalesEvents (clearCaches st).1 rs).1.processedEventIds
          = (getOpenSeaSalesEvents st rs).1.processedEventIds
        ∧ (getOpenSeaSalesEvents (clearCaches st).1 rs).1.lastEventTimestamp
          = (getOpenSeaSalesEvents st rs).1.lastEventTimestamp) := by
  refine ⟨fun st => rfl, fun st => ⟨rfl, rfl, rfl⟩, fun st rs => ?_⟩
  unfold getOpenSeaSalesEvents clearCaches
  exact ⟨rfl, rfl, rfl⟩

/-- Claim C10: from any state in which the recent-sales list holds at most
20 entries, either processor's trackSaleEvent puts the new sale at the front
and leaves the length at most 20, evicting the oldest entry when the bound
would be exceeded. -/
theorem trackSaleEvent_bound (recent : List SaleRecord) (now : Nat)
    (details : ProjectDetails) (priceEth : ℚ) (buyer : String) (usdPrice : Option ℚ)
    (url : String) (h : recent.length ≤ 20) :
    (trackSaleEventOS recent now details priceEth buyer usdPrice url).head? =
      some { timestamp := now, projectName := details.projectName,
             artistName := details.artistName, tokenNumber := details.tokenNumber,
             priceEth := priceEth, usdPrice := usdPrice, buyer := buyer, url := url,
             source := none, aiContext := details.aiContext }
    ∧ (trackSaleEventOS recent now details priceEth buyer usdPrice url).length ≤ 20
    ∧ (trackSaleEventTx recent now details priceEth buyer usdPrice url).head? =
      some { timestamp := now, projectName := details.projectName,
             artistName := details.artistName, tokenNumber := details.tokenNumber,
             priceEth := priceEth, usdPrice := usdPrice, buyer := buyer, url := url,
             source := some "Blockchain", aiContext := details.aiContext }
    ∧ (trackSaleEventTx recent now details priceEth buyer usdPrice url).length ≤ 20 :=
  ⟨(push_bound _ recent h).1, (push_bound _ recent h).2,
   (push_bound _ recent h).1, (push_bound _ recent h).2⟩

/-- Witness for the recent-sales bound: tracking into an empty list puts the
new sale in front. -/
theorem trackSaleEvent_bound_witness :
    (trackSaleEventOS [] 7 msgW.details 1 "b" none "u").head? =
      some { timestamp := 7, projectName := msgW.details.projectName,
             artistName := msgW.details.artistName, tokenNumber := msgW.details.tokenNumber,
             priceEth := 1, usdPrice := none, buyer := "b", url := "u",
             source := none, aiContext := msgW.details.aiContext }
    ∧ (trackSaleEventOS [] 7 msgW.details 1 "b" none "u").length ≤ 20
    ∧ (trackSaleEventTx [] 7 msgW.details 1 "b" none "u").head? =
      some { timestamp := 7, projectName := msgW.details.projectName,
             artistName := msgW.details.artistName, tokenNumber := msgW.details.tokenNumber,
             priceEth := 1, usdPrice := none, buyer := "b", url := "u",
             source := some "Blockchain", aiContext := msgW.details.aiContext }
    ∧ (trackSaleEventTx [] 7 msgW.details 1 "b" none "u").length ≤ 20 :=
  trackSaleEvent_bound [] 7 msgW.details 1 "b" none "u" (by decide)

/-- Claim C5: on either ingestion path, a sale candidate whose resolved price
in ETH is strictly below MIN_PRICE_ETH is rejected before metadata resolution
and enqueues no publication task. -/
theorem price_floor_rejects :
    (∀ (env : SaleEnv) (ev : OSEvent) (st : ProcState),
      (∀ p, ev.payment = some p → (p.quantity : ℚ) / 10 ^ 18 < config.MIN_PRICE_ETH) →
      (processSaleEvent config env ev st).ret = false
      ∧ (processSaleEvent config env ev st).state.tweetQueue = st.tweetQueue
      ∧ (processSaleEvent config env ev st).metadataQueried = false)
    ∧ (∀ (env : SaleEnv) (tin : TxInput) (st : ProcState),
        (∀ t r, tin.transaction = some t → tin.receipt = some r →
          extractSalePrice t r < config.MIN_PRICE_ETH) →
        (processTransaction config env tin st).ret = false
        ∧ (processTransaction config env tin st).state.tweetQueue = st.tweetQueue
        ∧ (processTransaction config env tin st).metadataQueried = false) := by
  constructor
  · intro env ev st h
    rcases ev with ⟨i, ts, pay, nft, w⟩
    rcases pay with _ | p
    · exact ⟨rfl, rfl, rfl⟩
    · rcases nft with _ | n
      · exact ⟨rfl, rfl, rfl⟩
      · have hp : (p.quantity : ℚ) / 10 ^ 18 < config.MIN_PRICE_ETH := h p rfl
        unfold processSaleEvent
        dsimp only
        split
        · exact ⟨rfl, rfl, rfl⟩
        · exact ⟨rfl, rfl, rfl⟩
  · intro env tin st h
    rcases tin with ⟨hash, ca, tr, rc⟩
    unfold processTransaction
    dsimp only
    split
    · exact ⟨rfl, rfl, rfl⟩
    · rcases tr with _ | t
      · exact ⟨rfl, rfl, rfl⟩
      · dsimp only
        split
        · exact ⟨rfl, rfl, rfl⟩
        · rcases rc with _ | r
          · exact ⟨rfl, rfl, rfl⟩
          · have hp : extractSalePrice t r < config.MIN_PRICE_ETH := h t r rfl rfl
            dsimp only
            split
            · exact ⟨rfl, rfl, rfl⟩
            · split
              · split
                · exact ⟨rfl, rfl, rfl⟩
                · rename_i hcond
                  exact absurd (Or.inl hp) hcond
              · exact ⟨rfl, rfl, rfl⟩

/-- Witness for the price floor: a marketplace event paying 10^14 wei (0.0001
ETH) and a transaction with no price signal are both rejected with nothing
queued and no metadata lookup. -/
theorem price_floor_rejects_witness :
    (processSaleEvent config env0 ⟨"os-low", 1, some ⟨10 ^ 14⟩, some ⟨cA, 7⟩, none⟩ st0).ret = false
    ∧ (processSaleEvent config env0 ⟨"os-low", 1, some ⟨10 ^ 14⟩, some ⟨cA, 7⟩, none⟩ st0).state.tweetQueue = st0.tweetQueue
    ∧ (processSaleEvent config env0 ⟨"os-low", 1, some ⟨10 ^ 14⟩, some ⟨cA, 7⟩, none⟩ st0).metadataQueried = false
    ∧ (processTransaction config env0 ⟨"0xlow", cA, some exTx, some ⟨[]⟩⟩ st0).ret = false
    ∧ (processTransaction config env0 ⟨"0xlow", cA, some exTx, some ⟨[]⟩⟩ st0).state.tweetQueue = st0.tweetQueue
    ∧ (processTransaction config env0 ⟨"0xlow", cA, some exTx, some ⟨[]⟩⟩ st0).metadataQueried = false := by
  have h1 := price_floor_rejects.1 env0 ⟨"os-low", 1, some ⟨10 ^ 14⟩, some ⟨cA, 7⟩, none⟩ st0
    (by intro p hp; cases hp; decide)
  have h2 := price_floor_rejects.2 env0 ⟨"0xlow", cA, some exTx, some ⟨[]⟩⟩ st0
    (by intro t r ht hr; cases ht; cases hr; decide)
  exact ⟨h1.1, h1.2.1, h1.2.2, h2.1, h2.2.1, h2.2.2⟩

/-- Claim C7: processTransaction records the transaction hash in the dedup
set on every call, so a second call with the same hash returns false and
changes nothing (no additional task is enqueued); on the marketplace feed,
getOpenSeaSalesEvents returns each event id at most once and never one that
was already processed. -/
theorem processTransaction_idempotent :
    (∀ (env : SaleEnv) (tin : TxInput) (st : ProcState),
      tin.hash ∈ (processTransaction config env tin st).state.processedTransactions)
    ∧ (∀ (env1 env2 : SaleEnv) (tin1 tin2 : TxInput) (st : ProcState),
        tin1.hash = tin2.hash →
        (processTransaction config env2 tin2
            (processTransaction config env1 tin1 st).state).ret = false
        ∧ (processTransaction config env2 tin2
            (processTransaction config env1 tin1 st).state).state
          = (processTransaction config env1 tin1 st).state)
    ∧ (∀ (st : ApiState) (rs : List (Option (List OSEvent))),
        ((getOpenSeaSalesEvents st rs).2.map OSEvent.id).Nodup
        ∧ ∀ e ∈ (getOpenSeaSalesEvents st rs).2, e.id ∉ st.processedEventIds) := by
  refine ⟨processTransaction_records_hash, ?_, getOpenSeaSalesEvents_inv⟩
  intro env1 env2 tin1 tin2 st heq
  have hmem : tin2.hash ∈ (processTransaction config env1 tin1 st).state.processedTransactions := by
    rw [← heq]
    exact processTransaction_records_hash env1 tin1 st
  rw [processTransaction_shortcircuit env2 tin2 _ hmem]
  exact ⟨rfl, rfl⟩

/-- Witness for idempotence: processing the scenario transaction twice from a
fresh state leaves the second call returning false with the state unchanged. -/
theorem processTransaction_idempotent_witness :
    (processTransaction config env0 exTxInput
        (processTransaction config env0 exTxInput st0).state).ret = false
    ∧ (processTransaction config env0 exTxInput
        (processTransaction config env0 exTxInput st0).state).state
      = (processTransaction config env0 exTxInput st0).state :=
  processTransaction_idempotent.2.1 env0 env0 exTxInput exTxInput st0 rfl

/-- Claim C1 counterexample: the same underlying 2.5 ETH sale observed by
both feeds is published twice.  The marketplace-feed call enqueues a task and
returns true, and the chain-monitor call for the same sale also enqueues a
task and returns true, leaving two publication tasks on the queue — the
second call neither returns false nor enqueues nothing. -/
theorem cross_feed_double_publish :
    (processSaleEvent config env0 exEvent st0).ret = true
    ∧ (processTransaction config env0 exTxInput
        (processSaleEvent config env0 exEvent st0).state).ret = true
    ∧ (processSaleEvent config env0 exEvent st0).state.tweetQueue.length = 1
    ∧ (processTransaction config env0 exTxInput
        (processSaleEvent config env0 exEvent st0).state).state.tweetQueue.length = 2 := by
  decide

/-- Claim C1 as amended: deduplication is per feed and per identifier space
only.  A sale observed by both feeds yields one publication task per feed
(two in total, both calls returning true); within the chain monitor a
repeated transaction hash adds nothing and returns false, and within the
marketplace feed a repeated event id is filtered out by
getOpenSeaSalesEvents before processing. -/
theorem dedup_is_per_feed :
    (processSaleEvent config env0 exEvent st0).ret = true
    ∧ (processTransaction config env0 exTxInput
        (processSaleEvent config env0 exEvent st0).state).ret = true
    ∧ (processTransaction config env0 exTxInput
        (processSaleEvent config env0 exEvent st0).state).state.tweetQueue.length = 2
    ∧ (processTransaction config env0 exTxInput
        (processTransaction config env0 exTxInput
          (processSaleEvent config env0 exEvent st0).state).state).ret = false
    ∧ (processTransaction config env0 exTxInput
        (processTransaction config env0 exTxInput
          (processSaleEvent config env0 exEvent st0).state).state).state.tweetQueue.length = 2
    ∧ (getOpenSeaSalesEvents apiSt0 [some [exEvent, exEvent]]).2 = [exEvent] := by
  decide

/-- Claim C3 counterexample: a publish failure with HTTP code 403 whose
message does not contain the substring of the code is requeued, not
abandoned: the queue still holds the task after the failing attempt, and a
later invocation performs a second send attempt for it. -/
theorem forbidden403_requeued :
    (sendTweet config (fun _ => AttemptResult.err 403 "Forbidden")).1 = 1
    ∧ (sendTweet config (fun _ => AttemptResult.err 403 "Forbidden")).2 = some (403, "Forbidden")
    ∧ (processTweetQueueStep config ⟨[msgW], false, 0, 0, 0, 1⟩
        ⟨300001, 300002, .failure 403 "Forbidden"⟩).2 = true
    ∧ (processTweetQueueStep config ⟨[msgW], false, 0, 0, 0, 1⟩
        ⟨300001, 300002, .failure 403 "Forbidden"⟩).1.tweetQueue = [msgW]
    ∧ (processTweetQueueStep config
        (processTweetQueueStep config ⟨[msgW], false, 0, 0, 0, 1⟩
          ⟨300001, 300002, .failure 403 "Forbidden"⟩).1
        ⟨2000000, 2000001, .success⟩).2 = true := by
  decide

/-- Claim C3 as amended: the send call itself never retries past a 403 (the
retry wrapper bails, so a first-attempt 403 makes exactly one publish
attempt and rejects with that error); whether the queue consumer abandons
the task is decided by the error message, not the code: after a performed
failing attempt the task is removed exactly when the message contains the
substring of the permanent code, and otherwise put back at the front. -/
theorem permanent_failure_amended :
    (∀ (oracle : Nat → AttemptResult) (msg : String),
      oracle 1 = AttemptResult.err 403 msg →
      sendTweet config oracle = (1, some (403, msg)))
    ∧ (∀ (st : QState) (ev : QueueEvent) (code : Nat) (msg : String),
        ev.outcome = SendOutcome.failure code msg →
        (processTweetQueueStep config st ev).2 = true →
        (processTweetQueueStep config st ev).1.tweetQueue
          = if containsSub msg "403" then st.tweetQueue.tail else st.tweetQueue) := by
  constructor
  · intro oracle msg h
    show runRetry oracle 3 1 = _
    unfold runRetry
    rw [h]
    rfl
  · intro st ev code msg hev hp
    rcases step_cases st ev with hidle | ⟨_, _, _, _, _, hqueue⟩
    · rw [hidle] at hp
      simp at hp
    · rw [hqueue, hev]

/-- Witness for the amended permanent-failure theorem: a first-attempt 403
with the code in its message makes one attempt, and the failing step drops
the task from the queue. -/
theorem permanent_failure_amended_witness :
    sendTweet config (fun _ => AttemptResult.err 403 "Request failed with code 403")
      = (1, some (403, "Request failed with code 403"))
    ∧ (processTweetQueueStep config ⟨[msgW], false, 0, 0, 0, 1⟩
        ⟨300001, 300002, .failure 403 "Request failed with code 403"⟩).1.tweetQueue
      = if containsSub "Request failed with code 403" "403"
        then ([msgW] : List TweetMsg).tail else [msgW] :=
  ⟨permanent_failure_amended.1 (fun _ => AttemptResult.err 403 "Request failed with code 403")
      "Request failed with code 403" rfl,
   permanent_failure_amended.2 ⟨[msgW], false, 0, 0, 0, 1⟩
      ⟨300001, 300002, .failure 403 "Request failed with code 403"⟩ 403
      "Request failed with code 403" rfl (by decide)⟩

/-- Claim C4: along any chronological sequence of queue-consumer
invocations, the completion times of consecutive successful publish attempts
are at least MIN_TIME_BETWEEN_TWEETS apart; and an invocation arriving less
than the minimum interval after the last send defers, leaving the state
unchanged and performing no send. -/
theorem tweet_queue_min_interval :
    (∀ (st : QState) (evs : List QueueEvent),
      chronFrom st.lastTweetTime evs = true →
      List.Chain' (fun a b => a + config.MIN_TIME_BETWEEN_TWEETS ≤ b)
        (successTimes config st evs))
    ∧ (∀ (st : QState) (ev : QueueEvent),
        0 < st.lastTweetTime →
        ev.now - st.lastTweetTime < config.MIN_TIME_BETWEEN_TWEETS →
        processTweetQueueStep config st ev = (st, false)) := by
  constructor
  · intro st evs h
    exact (successTimes_chain evs st h).1
  · intro st ev h1 h2
    rcases step_cases st ev with hidle | ⟨_, _, hgate, _, _, _⟩
    · exact hidle
    · rcases hgate with h0 | hb
      · omega
      · omega

/-- Witness for the rate-limit theorem: a two-send trace respects the
minimum interval, and an invocation one minute after a send defers. -/
theorem tweet_queue_min_interval_witness :
    chronFrom qStW.lastTweetTime evsW = true
    ∧ List.Chain' (fun a b => a + config.MIN_TIME_BETWEEN_TWEETS ≤ b)
        (successTimes config qStW evsW)
    ∧ 0 < qStDeferW.lastTweetTime
    ∧ evDeferW.now - qStDeferW.lastTweetTime < config.MIN_TIME_BETWEEN_TWEETS
    ∧ processTweetQueueStep config qStDeferW evDeferW = (qStDeferW, false) :=
  ⟨by decide, tweet_queue_min_interval.1 qStW evsW (by decide), by decide, by decide,
   tweet_queue_min_interval.2 qStDeferW evDeferW (by decide) (by decide)⟩

/-- Claim C2 counterexample: token 1506 on the tracked contract with no data
from any provider does not resolve through the general fallback path: the
code special-cases it to "Chromie Squiggle" by "Snowfro" instead of
"Art Blocks Flagship V0 Project #0" by "Unknown Artist". -/
theorem token1506_special_cased :
    (getProjectDetails config 1506 cA noData noData noData).projectName = "Chromie Squiggle"
    ∧ (getProjectDetails config 1506 cA noData noData noData).artistName = "Snowfro"
    ∧ (getProjectDetails config 1506 cA noData noData noData).projectName
      ≠ "Art Blocks Flagship V0 Project #0"
    ∧ (getProjectDetails config 1506 cA noData noData noData).artistName ≠ "Unknown Artist" := by
  decide

/-- Claim C2 as amended: with no data from any provider, token 1506 is
special-cased to project "Chromie Squiggle" and artist "Snowfro" on any
contract, while every other token id resolves through the general fallback
path to "(contract label) Project #(tokenId div 1000000)" and
"Unknown Artist". -/
theorem metadata_fallback_amended :
    (∀ (contract : String),
      (getProjectDetails config 1506 contract noData noData noData).projectName
        = "Chromie Squiggle"
      ∧ (getProjectDetails config 1506 contract noData noData noData).artistName = "Snowfro")
    ∧ (∀ (tokenId : Nat) (contract : String), tokenId ≠ 1506 →
        (getProjectDetails config tokenId contract noData noData noData).projectName
          = contractLabel config (lowerStr contract) ++ " Project #"
            ++ natToString (tokenId / 1000000)
        ∧ (getProjectDetails config tokenId contract noData noData noData).artistName
          = "Unknown Artist") := by
  constructor
  · intro contract
    exact ⟨rfl, rfl⟩
  · intro tokenId contract h
    have hlab := contractLabel_mem (lowerStr contract)
    obtain ⟨hlnil, hlhead, hlny⟩ := label_props _ hlab
    have hy : ∀ c ∈ (contractLabel config (lowerStr contract) ++ " Project #"
        ++ natToString (tokenId / 1000000)).data.map lowerChar, c ≠ 'y' := by
      intro c hc
      rw [String.data_append, String.data_append, List.map_append, List.map_append] at hc
      rcases List.mem_append.mp hc with hc' | hc'
      · rcases List.mem_append.mp hc' with hc'' | hc''
        · exact fun he => hlny (he ▸ hc'')
        · intro he
          subst he
          revert hc''
          decide
      · rcases List.mem_map.mp hc' with ⟨d, hd, hld⟩
        have hdig : isDigitChar d = true := natDigitsAux_digits _ _ d hd
        rw [digit_lowerChar_self d hdig] at hld
        subst hld
        exact digit_ne_y d hdig
    have hnone := matchByArtist_eq_none _ hy
    have htrim : trimStr (contractLabel config (lowerStr contract) ++ " Project #"
        ++ natToString (tokenId / 1000000))
        = contractLabel config (lowerStr contract) ++ " Project #"
          ++ natToString (tokenId / 1000000) := by
      apply trimStr_eq_self
      · intro c hc
        rw [String.data_append, String.data_append, List.append_assoc] at hc
        rw [List.head?_append_of_ne_nil _ hlnil] at hc
        rcases hl : (contractLabel config (lowerStr contract)).data with _ | ⟨a, t⟩
        · exact absurd hl hlnil
        · rw [hl] at hc
          simp only [List.head?_cons, Option.some.injEq] at hc
          subst hc
          have hh := hlhead
          rw [hl] at hh
          simpa using hh
      · intro c hc
        have hdne : (natToString (tokenId / 1000000)).data ≠ [] :=
          natDigitsAux_ne_nil (tokenId / 1000000) (tokenId / 1000000)
        rw [String.data_append] at hc
        rw [List.getLast?_append_of_ne_nil _ hdne] at hc
        rw [← List.head?_reverse] at hc
        have hcmem : c ∈ (natToString (tokenId / 1000000)).data :=
          List.mem_reverse.mp (List.mem_of_mem_head? hc)
        exact isDigit_not_ws c (natDigitsAux_digits _ _ c hcmem)
    unfold getProjectDetails
    simp only [noData]
    constructor
    · simp [h, htrim]
    · simp [h, hnone]
      decide

/-- Witness for the amended metadata fallback at token 2000000 on the first
tracked contract: project id 2 yields the synthesized name with the V0 label
and the Unknown Artist fallback. -/
theorem metadata_fallback_amended_witness :
    (2000000 : Nat) ≠ 1506
    ∧ (getProjectDetails config 2000000 cA noData noData noData).projectName
        = "Art Blocks Flagship V0 Project #2"
    ∧ (getProjectDetails config 2000000 cA noData noData noData).artistName
        = "Unknown Artist" :=
  ⟨by decide,
   ((metadata_fallback_amended.2 2000000 cA (by decide)).1).trans (by decide),
   (metadata_fallback_amended.2 2000000 cA (by decide)).2⟩

end SalesBot
